import Mathlib

/-!
Verification of the UK capital-gains tax report engine
(`beancount_plugin_tax_uk`): a shallow embedding of the matcher
(`generate_matches` / `match_transactions`), the report generator slice that
maintains the per-asset Section 104 pools and emits taxable-event records
(`generate_tax_report`), the classifier (`classify_asset`), the commission
extraction of `convert_transaction`, and the tax-year defaulting logic,
together with theorems settling the specification claims about them.

Conventions of the embedding:
* Python `Decimal` values are modelled as `ℚ` (exact rational arithmetic,
  no binary floating point, mirroring `decimal.Decimal` semantics on the
  values the program produces).
* Timestamps are integers in milliseconds since the epoch, as in the source;
  calendar days are obtained by flooring to whole days
  (`get_date_datetime` truncates a timestamp to midnight, so two timestamps
  are "the same day" exactly when their day numbers agree, and day
  differences of the truncated datetimes are whole numbers of days).
* The rate oracle (`RateConverter.get_rate`) is an explicit function
  parameter `rate : Int → String → ℚ` from (timestamp-ms, currency) to the
  GBP-to-currency rate.
* Python `while` loops are modelled by fuel recursion; the fuel supplied at
  every call site (`l.length`, with the loop index advancing by one per
  iteration) is exactly the number of iterations the Python loop can make,
  so the fuel never runs out.
* The failing `assert` in the S104 sell branch is modelled by `Except.error`.
-/

namespace TaxUK

/-- `models.AssetType`. -/
inductive AssetType where
  | CRYPTO
  | STOCKS
  | CFD
deriving DecidableEq, Repr

/-- The `.value` string of `models.AssetType`. -/
def AssetType.value : AssetType → String
  | .CRYPTO => "Crypto"
  | .STOCKS => "Stocks"
  | .CFD => "CFD"

/-- `models.TaxRelatedEventType`. -/
inductive TaxRelatedEventType where
  | BUY
  | SELL
  | VEST
  | STOCK_SPLIT
  | INCOME
  | DIVIDEND
  | CASH_INCOME
  | ERI
  | CAPITAL_RETURN
deriving DecidableEq, Repr

/-- The `.value` string of `models.TaxRelatedEventType`. -/
def TaxRelatedEventType.value : TaxRelatedEventType → String
  | .BUY => "Buy"
  | .SELL => "Sell"
  | .VEST => "Vest"
  | .STOCK_SPLIT => "Stock Split"
  | .INCOME => "Income"
  | .DIVIDEND => "Dividend"
  | .CASH_INCOME => "Cash Income"
  | .ERI => "ERI"
  | .CAPITAL_RETURN => "Capital Return"

/-- `models.TaxRule`. -/
inductive TaxRule where
  | SECTION_104
  | SAME_DAY
  | BED_AND_BREAKFAST
deriving DecidableEq, Repr

/-- Boolean equality test on `AssetType` (Python `==` on enum members). -/
def AssetType.beq : AssetType → AssetType → Bool
  | .CRYPTO, .CRYPTO => true
  | .STOCKS, .STOCKS => true
  | .CFD, .CFD => true
  | _, _ => false

/-- Boolean equality test on `TaxRelatedEventType` (Python `==` on enum
members). -/
def TaxRelatedEventType.beq : TaxRelatedEventType → TaxRelatedEventType → Bool
  | .BUY, .BUY => true
  | .SELL, .SELL => true
  | .VEST, .VEST => true
  | .STOCK_SPLIT, .STOCK_SPLIT => true
  | .INCOME, .INCOME => true
  | .DIVIDEND, .DIVIDEND => true
  | .CASH_INCOME, .CASH_INCOME => true
  | .ERI, .ERI => true
  | .CAPITAL_RETURN, .CAPITAL_RETURN => true
  | _, _ => false

/-- Boolean equality test on `TaxRule` (the source compares the `.value`
strings of the rules; on the enum this is plain equality). -/
def TaxRule.beq : TaxRule → TaxRule → Bool
  | .SECTION_104, .SECTION_104 => true
  | .SAME_DAY, .SAME_DAY => true
  | .BED_AND_BREAKFAST, .BED_AND_BREAKFAST => true
  | _, _ => false

/-- `models.TaxableGainGroup`. -/
inductive TaxableGainGroup where
  | UNLISTED_SHARES
  | LISTED_SHARES
  | OTHER_PROPERTY
  | DIVIDENDS
  | OTHER_INCOME
  | NOTIONAL_DIVIDENDS
  | CAPITAL_RETURN
deriving DecidableEq, Repr

/-- The `.value` string of `models.TaxableGainGroup`. -/
def TaxableGainGroup.value : TaxableGainGroup → String
  | .UNLISTED_SHARES => "Unlisted shares and securities"
  | .LISTED_SHARES => "Listed shares and securities"
  | .OTHER_PROPERTY => "Other property, assets and gains"
  | .DIVIDENDS => "Dividends"
  | .OTHER_INCOME => "Other income"
  | .NOTIONAL_DIVIDENDS => "Notional dividends / ERI"
  | .CAPITAL_RETURN => "Capital return"

/-!
## Classifier (`tax_report.classify_asset`)

The classifier receives the `asset_type` and `event_type` columns of a
taxable-event row; both hold the `.value` strings of the corresponding enums
(the row is built from `item.asset_type.value` and `item.type.value`).
-/

/-- `tax_report.classify_asset`, translated clause by clause from the chained
conditionals of the source (which compare the row's strings against enum
`.value` strings). -/
def classify_asset (asset_ty event_ty : String) : String :=
  if asset_ty = AssetType.CFD.value then
    TaxableGainGroup.UNLISTED_SHARES.value
  else if asset_ty = AssetType.CRYPTO.value then
    (if event_ty = TaxRelatedEventType.INCOME.value then
      TaxableGainGroup.OTHER_INCOME.value
    else
      TaxableGainGroup.OTHER_PROPERTY.value)
  else if event_ty = TaxRelatedEventType.DIVIDEND.value then
    TaxableGainGroup.DIVIDENDS.value
  else if event_ty = TaxRelatedEventType.CASH_INCOME.value then
    TaxableGainGroup.OTHER_INCOME.value
  else if event_ty = TaxRelatedEventType.SELL.value then
    TaxableGainGroup.LISTED_SHARES.value
  else if event_ty = TaxRelatedEventType.ERI.value then
    TaxableGainGroup.NOTIONAL_DIVIDENDS.value
  else if event_ty = TaxRelatedEventType.CAPITAL_RETURN.value then
    TaxableGainGroup.CAPITAL_RETURN.value
  else
    asset_ty ++ "_" ++ event_ty

/-- The classification table exactly as the claim states it, row by row,
with the claim's literal group names and the synthesised placeholder for
every pair matching no row. -/
def classify_asset_claimed (asset_ty event_ty : String) : String :=
  if asset_ty = "CFD" then "Unlisted shares and securities"
  else if asset_ty = "Crypto" ∧ event_ty = "Income" then "Other income"
  else if asset_ty = "Crypto" then "Other property, assets and gains"
  else if event_ty = "Dividend" then "Dividends"
  else if event_ty = "Cash Income" then "Other income"
  else if event_ty = "Sell" then "Listed shares and securities"
  else if event_ty = "ERI" then "Notional dividends / ERI"
  else if event_ty = "Capital Return" then "Capital return"
  else asset_ty ++ "_" ++ event_ty

/-!
## Commission extraction (`calculate_tax.convert_transaction`)

Only the commission accumulation over the posting loop is modelled.  An
account is abstracted by which of the three configured regexes it matches;
the branch order of the loop is kept (`ignored` is tested before
`commission`).
-/

/-- One Beancount posting, abstracted to the fields the commission loop of
`convert_transaction` reads: the regex matches of its account and its
`units.number` amount. -/
structure Posting where
  is_ignored : Bool
  is_commission : Bool
  amount : ℚ
deriving DecidableEq, Repr

/-- The `commission` variable of `convert_transaction` after the posting
loop: initialised to `0`; for each posting, an `ignored`-matching account is
skipped, and otherwise a `commission`-matching account OVERWRITES the
variable with that posting's amount (`commission = p.units.number`). -/
def convert_transaction_commission (ps : List Posting) : ℚ :=
  ps.foldl
    (fun commission p =>
      if p.is_ignored then commission
      else if p.is_commission then p.amount
      else commission)
    0

/-- The commission the claim (and the repository's own
`test_commission_accumulation`) calls for: the SUM of the amounts of all
commission-matching postings. -/
def claimed_commission (ps : List Posting) : ℚ :=
  ((ps.filter (fun p => p.is_commission)).map (fun p => p.amount)).sum

/-- The two commission postings of the repository's
`test_commission_accumulation` transaction (amounts 2 and 1 GBP), preceded
by the asset and cash postings, none of which match the commission or
ignored regexes. -/
def commission_test_postings : List Posting :=
  [⟨false, false, 10⟩, ⟨false, false, -1503⟩, ⟨false, true, 2⟩, ⟨false, true, 1⟩]

/-!
## Tax-year defaulting (`generate_tax_report`, `end_year` computation)
-/

/-- A calendar date as `datetime.datetime.now()` exposes it to the
`end_year` default computation: year, month and day-of-month. -/
structure SimpleDate where
  year : Int
  month : Nat
  day : Nat
deriving DecidableEq, Repr

/-- The `end_year` default of `generate_tax_report`:
`current_date.year if current_date.month >= 4 and current_date.day >= 6
else current_date.year - 1`. -/
def default_end_year (today : SimpleDate) : Int :=
  if 4 ≤ today.month ∧ 6 ≤ today.day then today.year else today.year - 1

/-- The `end_year` default the claim states (and the source comment intends):
the current calendar year when today is on or after April 6, the previous
year otherwise. -/
def default_end_year_claimed (today : SimpleDate) : Int :=
  if 4 < today.month ∨ (today.month = 4 ∧ 6 ≤ today.day) then today.year
  else today.year - 1

/-!
## Event model (`models.TaxRelatedEvent`, `models.TaxRelatedEventWithMatches`)
-/

/-- `models.TaxRelatedEvent`.  `timestamp` is in milliseconds since the
epoch; `quantity`, `price` and `fee_value` are exact decimals (`ℚ`). -/
structure TaxRelatedEvent where
  event_type : TaxRelatedEventType
  asset_type : AssetType
  timestamp : Int
  asset : String
  quantity : ℚ
  price : ℚ
  platform : String
  currency : String
  fee_value : ℚ
deriving DecidableEq, Repr

/-- `models.TaxRelatedEventWithMatches`: the wrapped event with its list of
match records `(index, quantity, rule)` and the mutable
`remaining_quantity`. -/
structure TaxRelatedEventWithMatches where
  event : TaxRelatedEvent
  matched : List (Nat × ℚ × TaxRule)
  remaining_quantity : ℚ
deriving DecidableEq, Repr

abbrev EvM := TaxRelatedEventWithMatches

/-- Construction of the wrapper (`matched` defaults to `[]`, and
`__post_init__` sets `remaining_quantity = event.quantity`). -/
def mk_with_matches (tr : TaxRelatedEvent) : EvM :=
  ⟨tr, [], tr.quantity⟩

/-- The numerical tolerance `EPS = 1e-8` of `tax_report`. -/
def EPS : ℚ := 1 / 100000000

/-- Calendar-day number of a millisecond timestamp: `get_date_datetime`
truncates `datetime.fromtimestamp(timestamp / 1000)` to midnight, so two
timestamps denote the same day exactly when their day numbers agree, and the
difference of two truncated datetimes is the difference of day numbers. -/
def day_of (ts_ms : Int) : Int :=
  ts_ms / 1000 / 86400

/-!
## Matcher (`tax_report.match_transactions`, `tax_report.generate_matches`)

The Python `while` loops mutate `transactions_list` in place through indices
`i` and `j`; the embedding passes the list explicitly and updates it with
`updAt`.  Each loop is given fuel equal to the length of the list, which is
exactly the number of iterations the loop can perform (the index advances by
one each iteration and the list length never changes).
-/

/-- In-place update of the `k`-th element of a list (no-op out of range),
modelling a Python assignment through `tr_list[k]`. -/
def updAt {α : Type} : List α → Nat → (α → α) → List α
  | [], _, _ => []
  | x :: xs, 0, f => f x :: xs
  | x :: xs, k + 1, f => x :: updAt xs k f

/-- `tr_list[k].remaining_quantity` (0 out of range; every use is in
range). -/
def remAt (l : List EvM) (k : Nat) : ℚ :=
  ((l[k]?).map (fun e => e.remaining_quantity)).getD 0

/-- `tr_list[k].asset` (empty out of range; every use is in range). -/
def assetAt (l : List EvM) (k : Nat) : String :=
  ((l[k]?).map (fun e => e.event.asset)).getD ""

/-- Day number of `tr_list[k]`'s timestamp. -/
def dayAt (l : List EvM) (k : Nat) : Int :=
  day_of (((l[k]?).map (fun e => e.event.timestamp)).getD 0)

/-- `tax_report.match_transactions`: record the matched quantity
`min(sell remaining, buy remaining)` on both sides and decrement both
remainders, in the statement order of the source.  (The `stock_splits`
parameter of the source is never read by the function body and is
omitted.) -/
def match_transactions (tr_list : List EvM) (i j : Nat) (rule : TaxRule) :
    List EvM :=
  let item_sq := remAt tr_list i
  let match_bq := remAt tr_list j
  let matched_quantity := min item_sq match_bq
  let l1 := updAt tr_list i
    (fun e => { e with matched := e.matched ++ [(j, matched_quantity, rule)] })
  let l2 := updAt l1 j
    (fun e => { e with matched := e.matched ++ [(i, matched_quantity, rule)] })
  let l3 := updAt l2 i
    (fun e => { e with remaining_quantity := e.remaining_quantity - matched_quantity })
  updAt l3 j
    (fun e => { e with remaining_quantity := e.remaining_quantity - matched_quantity })

/-- The date condition under which the pass `p` matches a disposal (day
`item_day`) with a buy candidate (day `cand_day`): equality for the
Same-Day pass; strictly later by at most 30 days for Bed-and-Breakfast. -/
def pass_date_cond (p : TaxRule) (item_day cand_day : Int) : Bool :=
  match p with
  | .SAME_DAY => cand_day = item_day
  | .BED_AND_BREAKFAST => item_day < cand_day ∧ cand_day ≤ item_day + 30
  | .SECTION_104 => false

/-- The inner `while j < len(transactions_list)` scan of `generate_matches`
for the disposal at index `i`: skip CFD candidates, skip candidates of a
different asset, of a non-Buy type or with remaining below `EPS`; otherwise
match when the pass's date condition holds, and break as soon as the
disposal's remaining quantity falls below `EPS`. -/
def inner_scan (p : TaxRule) : Nat → List EvM → Nat → Nat → List EvM
  | 0, l, _, _ => l
  | fuel + 1, l, i, j =>
    if hj : j < l.length then
      let candidate := l.get ⟨j, hj⟩
      if candidate.event.asset_type.beq AssetType.CFD then
        inner_scan p fuel l i (j + 1)
      else if assetAt l i ≠ candidate.event.asset then
        inner_scan p fuel l i (j + 1)
      else if !(candidate.event.event_type.beq TaxRelatedEventType.BUY) then
        inner_scan p fuel l i (j + 1)
      else if candidate.remaining_quantity < EPS then
        inner_scan p fuel l i (j + 1)
      else
        let l1 :=
          if pass_date_cond p (dayAt l i) (day_of candidate.event.timestamp) then
            match_transactions l i j p
          else l
        if remAt l1 i < EPS then l1
        else inner_scan p fuel l1 i (j + 1)
    else l

/-- The outer `while i < len(transactions_list)` loop of one matching pass:
only non-CFD Sell events with remaining quantity at least `EPS` start an
inner scan. -/
def outer_scan (p : TaxRule) : Nat → List EvM → Nat → List EvM
  | 0, l, _ => l
  | fuel + 1, l, i =>
    if hi : i < l.length then
      let item := l.get ⟨i, hi⟩
      if !(item.event.event_type.beq TaxRelatedEventType.SELL) then
        outer_scan p fuel l (i + 1)
      else if item.remaining_quantity < EPS then
        outer_scan p fuel l (i + 1)
      else if item.event.asset_type.beq AssetType.CFD then
        outer_scan p fuel l (i + 1)
      else
        outer_scan p fuel (inner_scan p l.length l i 0) (i + 1)
    else l

/-- The trailing loop of `generate_matches`: an event whose remaining
quantity is at least `EPS`, or whose match list is empty, receives a
self-record `(i, remaining, S104)` and its remaining quantity is zeroed;
all other events are left untouched. -/
def append_s104 : Nat → List EvM → List EvM
  | _, [] => []
  | i, e :: rest =>
    (if EPS ≤ e.remaining_quantity ∨ e.matched.isEmpty then
      { e with
        matched := e.matched ++ [(i, e.remaining_quantity, TaxRule.SECTION_104)],
        remaining_quantity := 0 }
    else e) :: append_s104 (i + 1) rest

/-- `tax_report.generate_matches`: the Same-Day pass over the whole list,
then the Bed-and-Breakfast pass, then the trailing S104 records.  (The
`copy.deepcopy` of the source is value copying; the heap-level frame
property is modelled separately for claim C10.) -/
def generate_matches (input_transactions_list : List EvM) : List EvM :=
  let l1 := outer_scan TaxRule.SAME_DAY input_transactions_list.length
    input_transactions_list 0
  let l2 := outer_scan TaxRule.BED_AND_BREAKFAST l1.length l1 0
  append_s104 0 l2

/-!
## Report generator (`tax_report.generate_tax_report`)

The embedding covers the part of `generate_tax_report` that the claims are
about: the iteration over the matched events and their match records, the
per-asset `AssetPool` state, and the `TaxableEventInfo` records appended to
`taxable_events`.  The display row stream, the tax-year dividers used only
to key `taxable_events`, and `asset_type_mapping` are not referenced by any
claim and are not modelled.  The rate oracle is the explicit parameter
`rate` (GBP-to-currency rate as a function of the event's millisecond
timestamp and currency, mirroring `rate_converter.get_rate`).
-/

/-- `tax_report.AssetPool`. -/
structure AssetPool where
  total_cost : ℚ := 0
  total_quantity : ℚ := 0
  last_disposal_date : Option Int := none
deriving DecidableEq, Repr

/-- `tax_report.TaxableEventInfo`.  `date` is the day number of the event's
timestamp (the source stores the datetime; only the `.date()` of it is ever
compared, against `last_disposal_date`).  `rule` is the `details["rule"]`
entry, present only on Sell records. -/
structure TaxableEventInfo where
  event_type : TaxRelatedEventType
  event_count : Int
  date : Int
  disposal_proceeds : ℚ
  allowable_cost : ℚ
  chargeable_gain : ℚ
  rule : Option TaxRule
deriving DecidableEq, Repr

/-- The `pools` defaultdict: a total map from asset to pool, lazily
defaulting to the empty pool. -/
def Pools : Type := String → AssetPool

/-- Update of the `pools` mapping at one asset. -/
def updPool (ps : Pools) (a : String) (p : AssetPool) : Pools :=
  fun x => if x = a then p else ps x

/-- Python `cur_datetime.date() != pool.last_disposal_date`: a date compared
with `None` is always unequal. -/
def date_ne_last (last : Option Int) (d : Int) : Bool :=
  match last with
  | none => true
  | some x => decide (x ≠ d)

/-- One match record of one event, processed exactly as the body of the
`for match_index, match in enumerate(item.matched)` loop of
`generate_tax_report`: dispatch on the event type in source order, update
the asset's pool, and emit at most one `TaxableEventInfo`.  The failing
`assert` on an S104 disposal from an empty pool, and an out-of-range
counterparty lookup, are `Except.error`.

In the CFD branch the source stores `profit_in_currency`-derived values,
which are `None` for events lacking that attribute (every
`TaxRelatedEvent`); those monetary fields are modelled as 0 — no claim
reads them, but the branch's `last_disposal_date` update and its emitted
record (with the dataclass default `event_count = 1`) are modelled
faithfully. -/
def process_match (rate : Int → String → ℚ)
    (transactions_with_matches : List EvM) (pool : AssetPool) (item : EvM)
    (match_index : Nat) (matched_row_index : Nat) (match_quantity : ℚ)
    (match_rule : TaxRule) : Except Unit (AssetPool × Option TaxableEventInfo) :=
  let t := item.event.event_type
  let cur_day := day_of item.event.timestamp
  let currency_to_gbp_rate := 1 / rate item.event.timestamp item.event.currency
  if t.beq .VEST || t.beq .BUY || t.beq .INCOME then
    let buy_value_gbp := item.event.price * match_quantity * currency_to_gbp_rate
    let fee_in_gbp := item.event.fee_value * currency_to_gbp_rate
    let pool1 :=
      if match_rule.beq .SECTION_104 then
        { pool with
          total_cost := pool.total_cost + (buy_value_gbp + fee_in_gbp),
          total_quantity := pool.total_quantity + match_quantity }
      else pool
    if t.beq .INCOME then
      .ok (pool1, some ⟨.INCOME, 1, cur_day, buy_value_gbp, 0, buy_value_gbp, none⟩)
    else
      .ok (pool1, none)
  else if item.event.asset_type.beq .CFD || t.beq .INCOME then
    .ok ({ pool with last_disposal_date := some cur_day },
      some ⟨t, 1, cur_day, 0, 0, 0, none⟩)
  else if t.beq .ERI then
    let buy_value_gbp := item.event.price * currency_to_gbp_rate
    .ok ({ pool with total_cost := pool.total_cost + buy_value_gbp },
      some ⟨t, 1, cur_day, buy_value_gbp, 0, buy_value_gbp, none⟩)
  else if t.beq .CAPITAL_RETURN then
    let sell_value_gbp := item.event.price * currency_to_gbp_rate
    .ok ({ pool with total_cost := pool.total_cost - sell_value_gbp },
      some ⟨t, 1, cur_day, sell_value_gbp, 0, sell_value_gbp, none⟩)
  else if t.beq .DIVIDEND || t.beq .CASH_INCOME then
    let buy_value_gbp := item.event.price * currency_to_gbp_rate
    .ok (pool, some ⟨t, 1, cur_day, buy_value_gbp, 0, buy_value_gbp, none⟩)
  else if t.beq .SELL then
    let sell_value_gbp := item.event.price * match_quantity * currency_to_gbp_rate
    let fee_in_gbp := item.event.fee_value * currency_to_gbp_rate
    let ec : Int :=
      if match_index = 0 ∧ date_ne_last pool.last_disposal_date cur_day then 1 else 0
    if match_rule.beq .SECTION_104 then
      if pool.total_quantity ≤ 0 then
        .error ()
      else
        let allowable_cost := match_quantity / pool.total_quantity * pool.total_cost
        .ok ({ pool with
              total_cost := pool.total_cost - allowable_cost,
              total_quantity := pool.total_quantity - match_quantity,
              last_disposal_date := some cur_day },
          some ⟨.SELL, ec, cur_day, sell_value_gbp, allowable_cost + fee_in_gbp,
            sell_value_gbp - allowable_cost - fee_in_gbp, some match_rule⟩)
    else
      match transactions_with_matches[matched_row_index]? with
      | none => .error ()
      | some buy_transaction =>
        let buy_value := buy_transaction.event.price * match_quantity
        let buy_rate :=
          rate buy_transaction.event.timestamp buy_transaction.event.currency
        let buy_value_gbp :=
          buy_value / buy_rate + buy_transaction.event.fee_value / buy_rate
        .ok ({ pool with last_disposal_date := some cur_day },
          some ⟨.SELL, ec, cur_day, sell_value_gbp, buy_value_gbp + fee_in_gbp,
            sell_value_gbp - buy_value_gbp - fee_in_gbp, some match_rule⟩)
  else
    .ok ({ pool with total_quantity := pool.total_quantity * item.event.quantity },
      none)

/-- The match-record loop of one event: thread the asset's pool through
`process_match` and collect the emitted records in order. -/
def process_matches (rate : Int → String → ℚ) (all : List EvM) (item : EvM) :
    AssetPool → Nat → List (Nat × ℚ × TaxRule) →
    Except Unit (AssetPool × List TaxableEventInfo)
  | pool, _, [] => .ok (pool, [])
  | pool, match_index, (mrow, mq, mrule) :: rest =>
    match process_match rate all pool item match_index mrow mq mrule with
    | .error e => .error e
    | .ok (pool1, emit) =>
      match process_matches rate all item pool1 (match_index + 1) rest with
      | .error e => .error e
      | .ok (pool2, evts) => .ok (pool2, emit.toList ++ evts)

/-- One event of the outer loop of `generate_tax_report`: a CFD Buy is
skipped entirely; otherwise the event's match records run against the pool
of the event's asset. -/
def process_item (rate : Int → String → ℚ) (all : List EvM) (pools : Pools)
    (item : EvM) : Except Unit (Pools × List TaxableEventInfo) :=
  if item.event.event_type.beq .BUY && item.event.asset_type.beq .CFD then
    .ok (pools, [])
  else
    match process_matches rate all item (pools item.event.asset) 0 item.matched with
    | .error e => .error e
    | .ok (pool1, evts) => .ok (updPool pools item.event.asset pool1, evts)

/-- The outer loop of `generate_tax_report`: process every event in order,
returning the final pools and, per event, the list of taxable-event records
it emitted. -/
def process_all (rate : Int → String → ℚ) (all : List EvM) :
    Pools → List EvM → Except Unit (Pools × List (List TaxableEventInfo))
  | pools, [] => .ok (pools, [])
  | pools, item :: rest =>
    match process_item rate all pools item with
    | .error e => .error e
    | .ok (pools1, evts) =>
      match process_all rate all pools1 rest with
      | .error e => .error e
      | .ok (pools2, evtss) => .ok (pools2, evts :: evtss)

/-- The taxable-event generation of `generate_tax_report` on an
already-matched list: all pools start empty. -/
def generate_tax_report_events (rate : Int → String → ℚ) (l : List EvM) :
    Except Unit (Pools × List (List TaxableEventInfo)) :=
  process_all rate l (fun _ => {}) l

/-- Stable insertion of an event into a timestamp-sorted list (earlier or
equal timestamps stay in front). -/
def insert_by_ts (e : TaxRelatedEvent) :
    List TaxRelatedEvent → List TaxRelatedEvent
  | [] => [e]
  | x :: xs =>
    if x.timestamp ≤ e.timestamp then x :: insert_by_ts e xs
    else e :: x :: xs

/-- `tax_related_events.sort(key=lambda tr: tr.timestamp)`: a stable sort by
timestamp (Python's sort is stable; any stable sort by the same key yields
the same list). -/
def sort_by_ts : List TaxRelatedEvent → List TaxRelatedEvent
  | [] => []
  | x :: xs => insert_by_ts x (sort_by_ts xs)

/-- The full pipeline of `generate_tax_report` as far as the claims reach:
sort the events by timestamp, wrap them, run the matcher, then generate the
pools and taxable-event records. -/
def generate_tax_report_core (rate : Int → String → ℚ)
    (tax_related_events : List TaxRelatedEvent) :
    Except Unit (Pools × List (List TaxableEventInfo)) :=
  generate_tax_report_events rate
    (generate_matches ((sort_by_ts tax_related_events).map mk_with_matches))

/-!
## Invariant vocabulary for the matcher proofs
-/

/-- Sum of the matched quantities over an event's match records. -/
def matched_sum (e : EvM) : ℚ :=
  (e.matched.map (fun m => m.2.1)).sum

/-- The immutable event parts of a wrapped list. -/
def events_of (l : List EvM) : List TaxRelatedEvent :=
  l.map (fun e => e.event)

/-- The Same-Day and Bed-and-Breakfast passes, in the order
`generate_matches` runs them (the result before the trailing S104
records). -/
def after_passes (l : List EvM) : List EvM :=
  outer_scan TaxRule.BED_AND_BREAKFAST
    (outer_scan TaxRule.SAME_DAY l.length l 0).length
    (outer_scan TaxRule.SAME_DAY l.length l 0) 0

/-- The date relation a pass rule requires between a disposal's day and a
buy candidate's day (the propositional reading of `pass_date_cond`). -/
def date_rule_ok : TaxRule → Int → Int → Prop
  | .SAME_DAY, ds, db => db = ds
  | .BED_AND_BREAKFAST, ds, db => ds < db ∧ db ≤ ds + 30
  | .SECTION_104, _, _ => False

/-- The events at indices `s` (disposal) and `b` (acquisition) form a legal
pass match under rule `r`: a non-CFD Sell against a non-CFD Buy of the same
asset with the rule's date relation. -/
def pair_ok (ev : List TaxRelatedEvent) (s b : Nat) (r : TaxRule) : Prop :=
  ∃ es eb, ev[s]? = some es ∧ ev[b]? = some eb ∧
    es.event_type = .SELL ∧ eb.event_type = .BUY ∧
    es.asset = eb.asset ∧
    es.asset_type ≠ .CFD ∧ eb.asset_type ≠ .CFD ∧
    date_rule_ok r (day_of es.timestamp) (day_of eb.timestamp)

/-- A match record `(j, q, r)` held by the event at index `k` is legal:
its quantity is at least `EPS`, its rule is a pass rule, and the two events
form a legal pass match in one of the two directions. -/
def entry_ok (ev : List TaxRelatedEvent) (k : Nat) (m : Nat × ℚ × TaxRule) :
    Prop :=
  EPS ≤ m.2.1 ∧ m.2.2 ≠ .SECTION_104 ∧
    (pair_ok ev k m.1 m.2.2 ∨ pair_ok ev m.1 k m.2.2)

/-- The inductive invariant of the two matching passes: the events are the
fixed list `ev`; every remaining quantity is the original quantity minus the
matched total; every event that has been matched has a nonnegative
remainder; and every match record is legal. -/
structure MatcherInv (ev : List TaxRelatedEvent) (l : List EvM) : Prop where
  events : l.map (fun e => e.event) = ev
  rem : ∀ (k : Nat) (e : EvM), l[k]? = some e →
    e.remaining_quantity = e.event.quantity - matched_sum e
  nonneg : ∀ (k : Nat) (e : EvM), l[k]? = some e → e.matched ≠ [] →
    0 ≤ e.remaining_quantity
  entries : ∀ (k : Nat) (e : EvM), l[k]? = some e →
    ∀ m ∈ e.matched, entry_ok ev k m

/-- The event at index `i` is a disposal the passes may scan for: a non-CFD
Sell. -/
def is_active_sell (ev : List TaxRelatedEvent) (i : Nat) : Prop :=
  ∃ e, ev[i]? = some e ∧ e.event_type = .SELL ∧ e.asset_type ≠ .CFD

/-- List `l'` extends every match list of `l` by records that all carry
rule `p`, leaving events unchanged (what one matching pass does to the
list). -/
def appended_with (p : TaxRule) (l l' : List EvM) : Prop :=
  l'.length = l.length ∧
  ∀ (k : Nat) (e : EvM), l[k]? = some e →
    ∃ (e' : EvM) (t : List (Nat × ℚ × TaxRule)), l'[k]? = some e' ∧
      e'.event = e.event ∧ e'.matched = e.matched ++ t ∧ ∀ m ∈ t, m.2.2 = p

/-!
## Heap model for the deepcopy frame property (claim C10)

`generate_matches` receives a Python list of mutable
`TaxRelatedEventWithMatches` objects.  Its first statement is
`transactions_list = copy.deepcopy(input_transactions_list)`; every
subsequent mutation goes through indices of `transactions_list`, i.e.
through the freshly allocated copies.  The heap model makes the aliasing
explicit: objects live at `Nat` addresses, the caller passes a list of
addresses, `deepcopy` allocates copies at fresh addresses, and the
decorated results are only ever written to those fresh addresses.
-/

/-- An object heap. -/
def Heap : Type := Nat → EvM

/-- Heap update at one address. -/
def upd_heap (h : Heap) (r : Nat) (e : EvM) : Heap :=
  fun x => if x = r then e else h x

/-- Write values to a list of addresses, pointwise. -/
def write_back (h : Heap) : List Nat → List EvM → Heap
  | [], _ => h
  | _, [] => h
  | r :: rs, v :: vs => write_back (upd_heap h r v) rs vs

/-- `generate_matches` on the heap: deep-copy the input objects to fresh
addresses `fresh, fresh+1, …`, run the matching on the copies (all of the
source's mutations target only those fresh addresses), and return the new
heap together with the addresses of the decorated copies. -/
def generate_matches_heap (h : Heap) (refs : List Nat) (fresh : Nat) :
    Heap × List Nat :=
  let copies := refs.map h
  let new_refs := (List.range refs.length).map (fun k => fresh + k)
  let h1 := write_back h new_refs copies
  (write_back h1 new_refs (generate_matches copies), new_refs)

/-!
## Concrete inputs used by the claim theorems
-/

/-- Event constructor with fixed platform and GBP currency, for concrete
inputs. -/
def sample_event (ty : TaxRelatedEventType) (aty : AssetType) (ts : Int)
    (a : String) (q p fee : ℚ) : TaxRelatedEvent :=
  ⟨ty, aty, ts, a, q, p, "platform", "GBP", fee⟩

/-- The constant rate oracle `1 currency = 1 GBP` (the oracle's contract
value for GBP). -/
def one_rate : Int → String → ℚ := fun _ _ => 1

/-- The events of the repository's `test_commission_split_in_s104_and_bb`:
buy 1000 at 10 (day 0), sell 500 at 12 with a 20 commission (day 200), buy
back 300 at 11 the next day (day 201); timestamps are the day numbers times
86400000 ms. -/
def commission_split_events : List TaxRelatedEvent :=
  [sample_event .BUY .STOCKS 0 "A" 1000 10 0,
   sample_event .SELL .STOCKS 17280000000 "A" 500 12 20,
   sample_event .BUY .STOCKS 17366400000 "A" 300 11 0]

/-- A single Capital Return event of 100 GBP on an asset with an empty
pool. -/
def capital_return_only : List TaxRelatedEvent :=
  [sample_event .CAPITAL_RETURN .STOCKS 0 "X" 0 100 0]

/-- A buy of 1 and a sell of 1 of the same asset on the same day: the sell
is fully matched by the Same-Day pass. -/
def same_day_pair : List TaxRelatedEvent :=
  [sample_event .BUY .STOCKS 0 "A" 1 10 0,
   sample_event .SELL .STOCKS 1000 "A" 1 12 0]

/-- A buy of 1 and a same-day sell of `1 + 10⁻⁹` (a sub-tolerance
representation drift): matching leaves a positive remainder below
`EPS`. -/
def same_day_pair_drift : List TaxRelatedEvent :=
  [sample_event .BUY .STOCKS 0 "A" 1 10 0,
   sample_event .SELL .STOCKS 1000 "A" (1 + 1/1000000000) 12 0]

/-- Two CFD sells of the same asset on the same day. -/
def cfd_two_sells : List TaxRelatedEvent :=
  [sample_event .SELL .CFD 0 "C" 1 5 0,
   sample_event .SELL .CFD 1000 "C" 1 5 0]

/-- The first CFD sell alone (the run prefix before the second sell). -/
def cfd_one_sell : List TaxRelatedEvent :=
  [sample_event .SELL .CFD 0 "C" 1 5 0]

/-!
## Further concrete inputs (witness instantiations)
-/

def bb_pair : List TaxRelatedEvent :=
  [sample_event .SELL .STOCKS 0 "A" 1 12 0,
   sample_event .BUY .STOCKS 86400000 "A" 1 10 0]

def sample_heap : Heap :=
  fun _ => mk_with_matches (sample_event .BUY .STOCKS 0 "A" 1 10 0)

def pool_cr : AssetPool := ⟨100, 10, none⟩

def item_cr : EvM := mk_with_matches (sample_event .CAPITAL_RETURN .STOCKS 0 "X" 0 50 0)

def pools_sell : Pools := fun _ => ⟨1000, 100, none⟩

def item_sell : EvM :=
  ⟨sample_event .SELL .STOCKS 0 "A" 1 12 0, [(0, 1, TaxRule.SECTION_104)], 0⟩

def sd_pair_buy_matched : EvM :=
  ⟨sample_event .BUY .STOCKS 0 "A" 1 10 0, [(1, 1, TaxRule.SAME_DAY)], 0⟩

def sd_pair_sell_matched : EvM :=
  ⟨sample_event .SELL .STOCKS 1000 "A" 1 12 0, [(0, 1, TaxRule.SAME_DAY)], 0⟩

def bb_sell_matched : EvM :=
  ⟨sample_event .SELL .STOCKS 0 "A" 1 12 0, [(1, 1, TaxRule.BED_AND_BREAKFAST)], 0⟩

/-!
## Theorems for claims C7, C8, C9
-/

/-- C7: the classifier is a pure total function on (asset_type, event_type):
CFD maps to "Unlisted shares and securities"; Crypto with Income maps to
"Other income"; any other Crypto maps to "Other property, assets and gains";
otherwise Dividend maps to "Dividends", CashIncome to "Other income", Sell
to "Listed shares and securities", ERI to "Notional dividends / ERI",
CapitalReturn to "Capital return"; and for every pair matching none of these
rows it returns the synthesised placeholder "<asset_type>_<event_type>". -/
theorem classify_asset_is_claimed_table (asset_ty event_ty : String) :
    classify_asset asset_ty event_ty = classify_asset_claimed asset_ty event_ty := by
  simp only [classify_asset, classify_asset_claimed, AssetType.value,
    TaxRelatedEventType.value, TaxableGainGroup.value]
  split_ifs <;> simp_all

/-- C8 (code divergence): on the transaction of the repository's own
`test_commission_accumulation` (two commission postings of 2 and 1), the
posting loop of `convert_transaction` leaves only the LAST matching posting
(1) in `commission`, whereas the claim and the test require the sum (3). -/
theorem convert_transaction_commission_is_last_not_sum :
    convert_transaction_commission commission_test_postings = 1 ∧
    claimed_commission commission_test_postings = 3 ∧
    convert_transaction_commission commission_test_postings ≠
      claimed_commission commission_test_postings := by
  refine ⟨?_, ?_, ?_⟩ <;>
    norm_num [convert_transaction_commission, claimed_commission,
      commission_test_postings, List.filter, List.sum]

/-- C9 (code divergence): on May 1 2025 — a date on or after April 6 whose
day of month is below 6 — the code's `end_year` default yields the previous
year 2024, while the claim (and the source's own comment) requires the
current year 2025. -/
theorem default_end_year_wrong_after_april :
    default_end_year ⟨2025, 5, 1⟩ = 2024 ∧
    default_end_year_claimed ⟨2025, 5, 1⟩ = 2025 ∧
    default_end_year ⟨2025, 5, 1⟩ ≠ default_end_year_claimed ⟨2025, 5, 1⟩ := by
  refine ⟨?_, ?_, ?_⟩ <;> decide

/-!
## Concrete evaluation theorems (claims C1, and the counterexamples of
C2, C3, C4, C6)
-/

set_option maxHeartbeats 2000000 in
/-- C1 (code divergence): on the events of the repository's own commission
split test (sell of 500 with fee 20 split into a B&B match of 300 and an
S104 remainder of 200, rate 1), the generator adds the FULL fee of 20 into
the allowable cost of each of the two match records (3300 + 20 = 3320 and
2000 + 20 = 2020), so the fee summed over the sell's match records is
2 × 20 = 40, not the event's `fee_value` 20; apportionment by
`q/total_sell_quantity` (claimed: 3312 and 2008) does not happen. -/
theorem sell_fee_counted_in_full_per_match :
    (generate_tax_report_core one_rate commission_split_events).map
        (fun r => r.2) =
      .ok [[],
        [⟨.SELL, 1, 200, 3600, 3320, 280, some .BED_AND_BREAKFAST⟩,
         ⟨.SELL, 0, 200, 2400, 2020, 380, some .SECTION_104⟩],
        []] ∧
    ((3320 : ℚ) - 3300) + (2020 - 2000) = 2 * 20 ∧ (2 * 20 : ℚ) ≠ 20 := by
  refine ⟨?_, by norm_num, by norm_num⟩
  norm_num [generate_tax_report_core, generate_tax_report_events, process_all,
    process_item, process_matches, process_match, updPool, date_ne_last,
    sort_by_ts, insert_by_ts, generate_matches, outer_scan, inner_scan,
    match_transactions, append_s104, updAt, remAt, assetAt, dayAt, day_of,
    EPS, pass_date_cond, mk_with_matches, sample_event, one_rate,
    commission_split_events, AssetType.beq, TaxRelatedEventType.beq,
    TaxRule.beq, Except.map]

set_option maxHeartbeats 2000000 in
/-- C2 (counterexample): a single Capital Return of 100 GBP on an empty
pool completes and leaves `total_cost = -100 < 0`, violating the claimed
nonnegativity for every input event list. -/
theorem pool_cost_negative_after_capital_return :
    (generate_tax_report_core one_rate capital_return_only).map
        (fun r => (r.1 "X").total_cost) = .ok (-100) ∧
    ¬ (0 : ℚ) ≤ -100 := by
  refine ⟨?_, by norm_num⟩
  norm_num [generate_tax_report_core, generate_tax_report_events, process_all,
    process_item, process_matches, process_match, updPool, date_ne_last,
    sort_by_ts, insert_by_ts, generate_matches, outer_scan, inner_scan,
    match_transactions, append_s104, updAt, remAt, assetAt, dayAt, day_of,
    EPS, pass_date_cond, mk_with_matches, sample_event, one_rate,
    capital_return_only, AssetType.beq, TaxRelatedEventType.beq,
    TaxRule.beq, Except.map]

set_option maxHeartbeats 2000000 in
/-- C3 (counterexample): a sell fully matched on the same day (remaining 0,
match list nonempty) receives NO trailing `(self, 0, S104)` record — its
match list after `generate_matches` is exactly the Same-Day pair record. -/
theorem fully_matched_sell_has_no_trailing_record :
    generate_matches (same_day_pair.map mk_with_matches) =
      [⟨sample_event .BUY .STOCKS 0 "A" 1 10 0, [(1, 1, .SAME_DAY)], 0⟩,
       ⟨sample_event .SELL .STOCKS 1000 "A" 1 12 0, [(0, 1, .SAME_DAY)], 0⟩] ∧
    ((generate_matches (same_day_pair.map mk_with_matches))[1]?).map
        (fun e => e.matched.any (fun m => m.2.2.beq .SECTION_104)) =
      some false := by
  constructor <;>
    norm_num [generate_matches, outer_scan, inner_scan, match_transactions,
      append_s104, updAt, remAt, assetAt, dayAt, day_of, EPS, pass_date_cond,
      mk_with_matches, sample_event, same_day_pair, AssetType.beq,
      TaxRelatedEventType.beq, TaxRule.beq]

set_option maxHeartbeats 2000000 in
/-- C4 (counterexample): for a sell of `1 + 10⁻⁹` matched against a buy of
1 on the same day, the sub-`EPS` remainder `10⁻⁹` is discarded (no trailing
record), so the matched quantities sum to 1, which is NOT exactly the
original quantity. -/
theorem matched_sum_below_quantity_on_drift :
    ((generate_matches (same_day_pair_drift.map mk_with_matches))[1]?).map
        matched_sum = some 1 ∧
    ¬ (1 : ℚ) = 1 + 1/1000000000 := by
  refine ⟨?_, by norm_num⟩
  norm_num [generate_matches, outer_scan, inner_scan, match_transactions,
    append_s104, updAt, remAt, assetAt, dayAt, day_of, EPS, pass_date_cond,
    mk_with_matches, sample_event, same_day_pair_drift, matched_sum,
    AssetType.beq, TaxRelatedEventType.beq, TaxRule.beq]

set_option maxHeartbeats 2000000 in
/-- C6 (counterexample): two CFD sells of the same asset on the same day
each emit a record with `event_count = 1` (the dataclass default taken by
the CFD branch), although the second sell's date equals the pool's
`last_disposal_date` left by the first — the claimed "1 on the first, 0 on
the second" fails for CFD Sell events. -/
theorem cfd_same_day_sells_both_count :
    (generate_tax_report_core one_rate cfd_two_sells).map (fun r => r.2) =
      .ok [[⟨.SELL, 1, 0, 0, 0, 0, none⟩], [⟨.SELL, 1, 0, 0, 0, 0, none⟩]] ∧
    (generate_tax_report_core one_rate cfd_one_sell).map
        (fun r => (r.1 "C").last_disposal_date) = .ok (some 0) := by
  constructor <;>
    norm_num [generate_tax_report_core, generate_tax_report_events,
      process_all, process_item, process_matches, process_match, updPool,
      date_ne_last, sort_by_ts, insert_by_ts, generate_matches, outer_scan,
      inner_scan, match_transactions, append_s104, updAt, remAt, assetAt,
      dayAt, day_of, EPS, pass_date_cond, mk_with_matches, sample_event,
      one_rate, cfd_two_sells, cfd_one_sell, AssetType.beq,
      TaxRelatedEventType.beq, TaxRule.beq, Except.map]

/-!
## Matcher lemmas and general claim theorems
-/

theorem assetType_beq_iff {a b : AssetType} : a.beq b = true ↔ a = b := by
  cases a <;> cases b <;> simp [AssetType.beq]

theorem eventType_beq_iff {a b : TaxRelatedEventType} :
    a.beq b = true ↔ a = b := by
  cases a <;> cases b <;> simp [TaxRelatedEventType.beq]

theorem taxRule_beq_iff {a b : TaxRule} : a.beq b = true ↔ a = b := by
  cases a <;> cases b <;> simp [TaxRule.beq]

theorem length_updAt {α : Type} (l : List α) (k : Nat) (f : α → α) :
    (updAt l k f).length = l.length := by
  induction l generalizing k with
  | nil => rfl
  | cons x xs ih => cases k <;> simp [updAt, ih]

theorem getElem?_updAt {α : Type} (l : List α) (k : Nat) (f : α → α) (j : Nat) :
    (updAt l k f)[j]? = if j = k then (l[j]?).map f else l[j]? := by
  induction l generalizing k j with
  | nil => simp [updAt]
  | cons x xs ih =>
    cases k with
    | zero => cases j <;> simp [updAt]
    | succ k' =>
      cases j with
      | zero => simp [updAt]
      | succ j' => simpa [updAt] using ih k' j'

theorem match_transactions_length (l : List EvM) (i j : Nat) (r : TaxRule) :
    (match_transactions l i j r).length = l.length := by
  simp [match_transactions, length_updAt]

theorem match_transactions_getElem?_i (l : List EvM) {i j : Nat} (r : TaxRule)
    (hij : i ≠ j) :
    (match_transactions l i j r)[i]? = (l[i]?).map (fun e =>
      { e with
        matched := e.matched ++ [(j, min (remAt l i) (remAt l j), r)],
        remaining_quantity :=
          e.remaining_quantity - min (remAt l i) (remAt l j) }) := by
  simp only [match_transactions, getElem?_updAt, if_neg hij, if_pos rfl]
  cases l[i]? <;> simp

theorem match_transactions_getElem?_j (l : List EvM) {i j : Nat} (r : TaxRule)
    (hij : i ≠ j) :
    (match_transactions l i j r)[j]? = (l[j]?).map (fun e =>
      { e with
        matched := e.matched ++ [(i, min (remAt l i) (remAt l j), r)],
        remaining_quantity :=
          e.remaining_quantity - min (remAt l i) (remAt l j) }) := by
  simp only [match_transactions, getElem?_updAt, if_neg (Ne.symm hij), if_pos rfl]
  cases l[j]? <;> simp

theorem match_transactions_getElem?_other (l : List EvM) {i j k : Nat}
    (r : TaxRule) (hki : k ≠ i) (hkj : k ≠ j) :
    (match_transactions l i j r)[k]? = l[k]? := by
  simp only [match_transactions, getElem?_updAt, if_neg hki, if_neg hkj]

theorem events_getElem? {ev : List TaxRelatedEvent} {l : List EvM}
    (h : l.map (fun e => e.event) = ev) (k : Nat) :
    ev[k]? = (l[k]?).map (fun e => e.event) := by
  subst h; simp [List.getElem?_map]

theorem remAt_eq {l : List EvM} {k : Nat} {e : EvM} (h : l[k]? = some e) :
    remAt l k = e.remaining_quantity := by simp [remAt, h]

theorem assetAt_eq {l : List EvM} {k : Nat} {e : EvM} (h : l[k]? = some e) :
    assetAt l k = e.event.asset := by simp [assetAt, h]

theorem dayAt_eq {l : List EvM} {k : Nat} {e : EvM} (h : l[k]? = some e) :
    dayAt l k = day_of e.event.timestamp := by simp [dayAt, h]

theorem pass_date_cond_true_iff {p : TaxRule} {ds db : Int} :
    pass_date_cond p ds db = true ↔ date_rule_ok p ds db := by
  cases p <;> simp [pass_date_cond, date_rule_ok]

theorem matched_sum_append (e : EvM) (m : Nat × ℚ × TaxRule) :
    matched_sum { e with matched := e.matched ++ [m] } =
      matched_sum e + m.2.1 := by
  simp [matched_sum]

theorem match_transactions_inv {ev : List TaxRelatedEvent} {l : List EvM}
    (inv : MatcherInv ev l) {i j : Nat} {r : TaxRule} (hij : i ≠ j)
    (hi : EPS ≤ remAt l i) (hj : EPS ≤ remAt l j)
    (hr : r ≠ .SECTION_104) (hpair : pair_ok ev i j r) :
    MatcherInv ev (match_transactions l i j r) := by
  have hq1 : min (remAt l i) (remAt l j) ≤ remAt l i := min_le_left _ _
  have hq2 : min (remAt l i) (remAt l j) ≤ remAt l j := min_le_right _ _
  have hqe : EPS ≤ min (remAt l i) (remAt l j) := le_min hi hj
  constructor
  case events =>
    rw [← inv.events]
    apply List.ext_getElem?
    intro k
    simp only [List.getElem?_map]
    by_cases hki : k = i
    · subst hki
      rw [match_transactions_getElem?_i l r hij]
      cases l[k]? <;> simp
    · by_cases hkj : k = j
      · subst hkj
        rw [match_transactions_getElem?_j l r hij]
        cases l[k]? <;> simp
      · rw [match_transactions_getElem?_other l r hki hkj]
  case rem =>
    intro k e he
    by_cases hki : k = i
    · subst hki
      rw [match_transactions_getElem?_i l r hij] at he
      obtain ⟨e0, he0, rfl⟩ := Option.map_eq_some'.mp he
      have h0 := inv.rem k e0 he0
      simp only [matched_sum_append]
      simp only [matched_sum] at h0 ⊢
      simp [h0]
      ring
    · by_cases hkj : k = j
      · subst hkj
        rw [match_transactions_getElem?_j l r hij] at he
        obtain ⟨e0, he0, rfl⟩ := Option.map_eq_some'.mp he
        have h0 := inv.rem k e0 he0
        simp only [matched_sum_append]
        simp only [matched_sum] at h0 ⊢
        simp [h0]
        ring
      · rw [match_transactions_getElem?_other l r hki hkj] at he
        exact inv.rem k e he
  case nonneg =>
    intro k e he hm
    by_cases hki : k = i
    · subst hki
      rw [match_transactions_getElem?_i l r hij] at he
      obtain ⟨e0, he0, rfl⟩ := Option.map_eq_some'.mp he
      have : remAt l k = e0.remaining_quantity := remAt_eq he0
      simp only []
      rw [← this]
      linarith
    · by_cases hkj : k = j
      · subst hkj
        rw [match_transactions_getElem?_j l r hij] at he
        obtain ⟨e0, he0, rfl⟩ := Option.map_eq_some'.mp he
        have : remAt l k = e0.remaining_quantity := remAt_eq he0
        simp only []
        rw [← this]
        linarith
      · rw [match_transactions_getElem?_other l r hki hkj] at he
        exact inv.nonneg k e he hm
  case entries =>
    intro k e he m hm
    by_cases hki : k = i
    · subst hki
      rw [match_transactions_getElem?_i l r hij] at he
      obtain ⟨e0, he0, rfl⟩ := Option.map_eq_some'.mp he
      simp only [List.mem_append, List.mem_singleton] at hm
      rcases hm with hm | rfl
      · exact inv.entries k e0 he0 m hm
      · exact ⟨hqe, hr, Or.inl hpair⟩
    · by_cases hkj : k = j
      · subst hkj
        rw [match_transactions_getElem?_j l r hij] at he
        obtain ⟨e0, he0, rfl⟩ := Option.map_eq_some'.mp he
        simp only [List.mem_append, List.mem_singleton] at hm
        rcases hm with hm | rfl
        · exact inv.entries k e0 he0 m hm
        · exact ⟨hqe, hr, Or.inr hpair⟩
      · rw [match_transactions_getElem?_other l r hki hkj] at he
        exact inv.entries k e he m hm

theorem appended_with_refl (p : TaxRule) (l : List EvM) : appended_with p l l :=
  ⟨rfl, fun _ e he => ⟨e, [], he, rfl, by simp, by simp⟩⟩

theorem appended_with_trans {p : TaxRule} {l1 l2 l3 : List EvM}
    (h12 : appended_with p l1 l2) (h23 : appended_with p l2 l3) :
    appended_with p l1 l3 := by
  obtain ⟨hl12, h12⟩ := h12
  obtain ⟨hl23, h23⟩ := h23
  refine ⟨hl23.trans hl12, ?_⟩
  intro k e he
  obtain ⟨e1, t1, he1, hev1, hm1, ht1⟩ := h12 k e he
  obtain ⟨e3, t2, he3, hev2, hm2, ht2⟩ := h23 k e1 he1
  refine ⟨e3, t1 ++ t2, he3, by rw [hev2, hev1], by rw [hm2, hm1, List.append_assoc], ?_⟩
  intro m hm3
  rcases List.mem_append.mp hm3 with hmem | hmem
  · exact ht1 m hmem
  · exact ht2 m hmem

theorem match_transactions_appended {l : List EvM} {i j : Nat} {p : TaxRule}
    (hij : i ≠ j) : appended_with p l (match_transactions l i j p) := by
  refine ⟨match_transactions_length l i j p, ?_⟩
  intro k e he
  by_cases hki : k = i
  · subst hki
    refine ⟨{ e with
        matched := e.matched ++ [(j, min (remAt l k) (remAt l j), p)],
        remaining_quantity :=
          e.remaining_quantity - min (remAt l k) (remAt l j) },
      [(j, min (remAt l k) (remAt l j), p)], ?_, rfl, rfl, by simp⟩
    rw [match_transactions_getElem?_i l p hij, he, Option.map_some']
  · by_cases hkj : k = j
    · subst hkj
      refine ⟨{ e with
          matched := e.matched ++ [(i, min (remAt l i) (remAt l k), p)],
          remaining_quantity :=
            e.remaining_quantity - min (remAt l i) (remAt l k) },
        [(i, min (remAt l i) (remAt l k), p)], ?_, rfl, rfl, by simp⟩
      rw [match_transactions_getElem?_j l p hij, he, Option.map_some']
    · exact ⟨e, [], by rw [match_transactions_getElem?_other l p hki hkj, he],
        rfl, by simp, by simp⟩

theorem inner_scan_inv {p : TaxRule} (hp : p ≠ .SECTION_104)
    {ev : List TaxRelatedEvent} :
    ∀ (fuel : Nat) (l : List EvM) (i j : Nat),
      MatcherInv ev l → is_active_sell ev i → EPS ≤ remAt l i →
      MatcherInv ev (inner_scan p fuel l i j) ∧
        appended_with p l (inner_scan p fuel l i j) := by
  intro fuel
  induction fuel with
  | zero =>
    intro l i j inv _ _
    simpa [inner_scan] using ⟨inv, appended_with_refl p l⟩
  | succ fuel ih =>
    intro l i j inv hsell hrem
    rw [inner_scan]
    split
    case isFalse => exact ⟨inv, appended_with_refl p l⟩
    case isTrue hj =>
      dsimp only
      have hcj : l[j]? = some (l.get ⟨j, hj⟩) := by
        simp [List.getElem?_eq_getElem hj]
      by_cases h1 : (l.get ⟨j, hj⟩).event.asset_type.beq AssetType.CFD = true
      · rw [if_pos h1]; exact ih l i (j + 1) inv hsell hrem
      rw [if_neg h1]
      by_cases h2 : assetAt l i ≠ (l.get ⟨j, hj⟩).event.asset
      · rw [if_pos h2]; exact ih l i (j + 1) inv hsell hrem
      rw [if_neg h2]
      by_cases h3 : (!(l.get ⟨j, hj⟩).event.event_type.beq
          TaxRelatedEventType.BUY) = true
      · rw [if_pos h3]; exact ih l i (j + 1) inv hsell hrem
      rw [if_neg h3]
      by_cases h4 : (l.get ⟨j, hj⟩).remaining_quantity < EPS
      · rw [if_pos h4]; exact ih l i (j + 1) inv hsell hrem
      rw [if_neg h4]
      have ⟨es, hes, hesty, hescfd⟩ := hsell
      have hev := events_getElem? inv.events i
      rw [hes] at hev
      obtain ⟨ei, hei, heiev⟩ := Option.map_eq_some'.mp hev.symm
      have hbuy : (l.get ⟨j, hj⟩).event.event_type = TaxRelatedEventType.BUY :=
        eventType_beq_iff.mp (by simpa using h3)
      have hij : i ≠ j := by
        intro hik
        subst hik
        have hq : l.get ⟨i, hj⟩ = ei := by
          rw [hcj] at hei
          exact Option.some_inj.mp hei
        have hcon : es.event_type = TaxRelatedEventType.BUY := by
          rw [← heiev, ← hq]
          exact hbuy
        rw [hesty] at hcon
        exact TaxRelatedEventType.noConfusion hcon
      have hjrem : EPS ≤ remAt l j := by
        rw [remAt_eq hcj]
        exact not_lt.mp h4
      by_cases h5 : pass_date_cond p (dayAt l i)
          (day_of (l.get ⟨j, hj⟩).event.timestamp) = true
      · rw [if_pos h5]
        have hpair : pair_ok ev i j p := by
          refine ⟨es, (l.get ⟨j, hj⟩).event, hes, ?_, hesty, hbuy, ?_, hescfd, ?_, ?_⟩
          · rw [events_getElem? inv.events j, hcj]; rfl
          · rw [not_not] at h2
            rw [← h2, assetAt_eq hei, heiev]
          · intro hcfd
            rw [← assetType_beq_iff] at hcfd
            exact h1 hcfd
          · have := pass_date_cond_true_iff.mp h5
            rwa [dayAt_eq hei, heiev] at this
        have inv1 := match_transactions_inv inv hij hrem hjrem hp hpair
        have app1 := match_transactions_appended (l := l) (p := p) hij
        by_cases h6 : remAt (match_transactions l i j p) i < EPS
        · rw [if_pos h6]; exact ⟨inv1, app1⟩
        · rw [if_neg h6]
          obtain ⟨inv2, app2⟩ :=
            ih (match_transactions l i j p) i (j + 1) inv1 hsell (not_lt.mp h6)
          exact ⟨inv2, appended_with_trans app1 app2⟩
      · rw [if_neg h5]
        by_cases h6 : remAt l i < EPS
        · rw [if_pos h6]; exact ⟨inv, appended_with_refl p l⟩
        · rw [if_neg h6]
          exact ih l i (j + 1) inv hsell (not_lt.mp h6)

theorem outer_scan_inv {p : TaxRule} (hp : p ≠ .SECTION_104)
    {ev : List TaxRelatedEvent} :
    ∀ (fuel : Nat) (l : List EvM) (i : Nat),
      MatcherInv ev l →
      MatcherInv ev (outer_scan p fuel l i) ∧
        appended_with p l (outer_scan p fuel l i) := by
  intro fuel
  induction fuel with
  | zero =>
    intro l i inv
    simpa [outer_scan] using ⟨inv, appended_with_refl p l⟩
  | succ fuel ih =>
    intro l i inv
    rw [outer_scan]
    split
    case isFalse => exact ⟨inv, appended_with_refl p l⟩
    case isTrue hi =>
      dsimp only
      have hci : l[i]? = some (l.get ⟨i, hi⟩) := by
        simp [List.getElem?_eq_getElem hi]
      by_cases h1 : (!(l.get ⟨i, hi⟩).event.event_type.beq
          TaxRelatedEventType.SELL) = true
      · rw [if_pos h1]; exact ih l (i + 1) inv
      rw [if_neg h1]
      by_cases h2 : (l.get ⟨i, hi⟩).remaining_quantity < EPS
      · rw [if_pos h2]; exact ih l (i + 1) inv
      rw [if_neg h2]
      by_cases h3 : (l.get ⟨i, hi⟩).event.asset_type.beq AssetType.CFD = true
      · rw [if_pos h3]; exact ih l (i + 1) inv
      rw [if_neg h3]
      have hsellty : (l.get ⟨i, hi⟩).event.event_type = TaxRelatedEventType.SELL :=
        eventType_beq_iff.mp (by simpa using h1)
      have hsell : is_active_sell ev i := by
        refine ⟨(l.get ⟨i, hi⟩).event, ?_, hsellty, ?_⟩
        · rw [events_getElem? inv.events i, hci]; rfl
        · intro hcfd
          rw [← assetType_beq_iff] at hcfd
          exact h3 hcfd
      have hrem : EPS ≤ remAt l i := by
        rw [remAt_eq hci]
        exact not_lt.mp h2
      obtain ⟨inv1, app1⟩ := inner_scan_inv hp l.length l i 0 inv hsell hrem
      obtain ⟨inv2, app2⟩ := ih _ (i + 1) inv1
      exact ⟨inv2, appended_with_trans app1 app2⟩

theorem mk_with_matches_inv (es : List TaxRelatedEvent) :
    MatcherInv es (es.map mk_with_matches) := by
  constructor
  case events =>
    simp only [List.map_map]
    have hcomp : ((fun e : EvM => e.event) ∘ mk_with_matches) =
        fun a : TaxRelatedEvent => a := by
      funext a; rfl
    rw [hcomp, List.map_id']
  case rem =>
    intro k e he
    simp only [List.getElem?_map] at he
    obtain ⟨a, ha, rfl⟩ := Option.map_eq_some'.mp he
    simp [mk_with_matches, matched_sum]
  case nonneg =>
    intro k e he hm
    simp only [List.getElem?_map] at he
    obtain ⟨a, ha, rfl⟩ := Option.map_eq_some'.mp he
    simp [mk_with_matches] at hm
  case entries =>
    intro k e he m hm
    simp only [List.getElem?_map] at he
    obtain ⟨a, ha, rfl⟩ := Option.map_eq_some'.mp he
    simp [mk_with_matches] at hm

theorem after_passes_inv (es : List TaxRelatedEvent) :
    MatcherInv es (after_passes (es.map mk_with_matches)) := by
  unfold after_passes
  have h1 := @outer_scan_inv TaxRule.SAME_DAY (by decide) es
    (es.map mk_with_matches).length (es.map mk_with_matches) 0
    (mk_with_matches_inv es)
  exact (@outer_scan_inv TaxRule.BED_AND_BREAKFAST (by decide) es
    (outer_scan TaxRule.SAME_DAY (es.map mk_with_matches).length
      (es.map mk_with_matches) 0).length
    (outer_scan TaxRule.SAME_DAY (es.map mk_with_matches).length
      (es.map mk_with_matches) 0) 0 h1.1).1

theorem length_append_s104 : ∀ (n : Nat) (l : List EvM),
    (append_s104 n l).length = l.length := by
  intro n l
  induction l generalizing n with
  | nil => rfl
  | cons x xs ih => simp [append_s104, ih]

theorem getElem?_append_s104 : ∀ (n k : Nat) (l : List EvM),
    (append_s104 n l)[k]? = (l[k]?).map (fun e =>
      if EPS ≤ e.remaining_quantity ∨ e.matched.isEmpty then
        { e with
          matched :=
            e.matched ++ [(n + k, e.remaining_quantity, TaxRule.SECTION_104)],
          remaining_quantity := 0 }
      else e) := by
  intro n k l
  induction l generalizing n k with
  | nil => simp [append_s104]
  | cons x xs ih =>
    cases k with
    | zero => simp [append_s104]
    | succ k' =>
      have h := ih (n + 1) k'
      rw [show n + 1 + k' = n + (k' + 1) from by omega] at h
      simpa [append_s104] using h

theorem generate_matches_eq_append (l : List EvM) :
    generate_matches l = append_s104 0 (after_passes l) := rfl

/-- C4 (amended): for every Sell event, the matched quantities sum to
within the `1e-8` tolerance below the original quantity:
`0 ≤ quantity − Σ matched < EPS`. -/
theorem sell_matched_sum_within_tolerance
    (es : List TaxRelatedEvent) (k : Nat) (e : EvM)
    (h : (generate_matches (es.map mk_with_matches))[k]? = some e)
    (hsell : e.event.event_type = TaxRelatedEventType.SELL) :
    0 ≤ e.event.quantity - matched_sum e ∧
      e.event.quantity - matched_sum e < EPS := by
  rw [generate_matches_eq_append, getElem?_append_s104] at h
  obtain ⟨e2, he2, rfl⟩ := Option.map_eq_some'.mp h
  have inv := after_passes_inv es
  have hrem := inv.rem k e2 he2
  have heps : (0 : ℚ) < EPS := by norm_num [EPS]
  by_cases hc : EPS ≤ e2.remaining_quantity ∨ e2.matched.isEmpty
  · rw [if_pos hc]
    have hms : matched_sum { e2 with
        matched :=
          e2.matched ++ [(0 + k, e2.remaining_quantity, TaxRule.SECTION_104)],
        remaining_quantity := 0 } = matched_sum e2 + e2.remaining_quantity :=
      matched_sum_append e2 _
    rw [hms]
    constructor
    · simp only []
      linarith
    · simp only []
      linarith
  · rw [if_neg hc]
    push_neg at hc
    have hlt : e2.remaining_quantity < EPS := hc.1
    have hne : e2.matched ≠ [] := by
      intro hmt
      rw [hmt] at hc
      exact hc.2 rfl
    have hnn := inv.nonneg k e2 he2 hne
    constructor
    · linarith
    · linarith

/-- C3 (amended): after the passes, an event receives the trailing
`(self, remaining, S104)` record exactly when its remaining quantity is at
least `EPS` or its match list is empty; in every case the event ends with a
nonempty match list. -/
theorem every_event_keeps_a_match_record
    (es : List TaxRelatedEvent) (k : Nat) (e2 : EvM)
    (h : (after_passes (es.map mk_with_matches))[k]? = some e2) :
    ∃ e, (generate_matches (es.map mk_with_matches))[k]? = some e ∧
      e.matched ≠ [] ∧
      ((EPS ≤ e2.remaining_quantity ∨ e2.matched = []) →
        e.matched =
          e2.matched ++ [(k, e2.remaining_quantity, TaxRule.SECTION_104)] ∧
        e.remaining_quantity = 0) ∧
      (e2.remaining_quantity < EPS ∧ e2.matched ≠ [] → e = e2) := by
  rw [generate_matches_eq_append, getElem?_append_s104, h, Option.map_some']
  by_cases hc : EPS ≤ e2.remaining_quantity ∨ e2.matched.isEmpty
  · refine ⟨_, rfl, ?_, ?_, ?_⟩
    · rw [if_pos hc]
      simp
    · intro _
      rw [if_pos hc]
      constructor
      · simp
      · rfl
    · intro ⟨hlt, hne⟩
      rcases hc with hc | hc
      · exact absurd hc (not_le.mpr hlt)
      · exact absurd (List.isEmpty_iff.mp hc) hne
  · refine ⟨_, rfl, ?_, ?_, ?_⟩
    · rw [if_neg hc]
      intro hmt
      exact hc (Or.inr (by rw [hmt]; rfl))
    · intro hor
      rcases hor with hor | hor
      · exact absurd (Or.inl hor) hc
      · exact absurd (Or.inr (by rw [hor]; rfl)) hc
    · intro _
      rw [if_neg hc]


/-- C5: behavioural content of the two-pass structure.  In every event's
final match list all Same-Day records precede all Bed-and-Breakfast records,
which precede the trailing S104 records (the Same-Day pass finished before
the Bed-and-Breakfast pass started); every B&B record on a Sell points at a
non-CFD Buy of the same asset whose day is strictly later by at most 30
days and transfers at least `EPS`; and after the passes every remaining
quantity is the original quantity minus the total transferred (each match
decremented both remainders by the matched quantity). -/
theorem bb_pass_behavior (es : List TaxRelatedEvent) (k : Nat) (e : EvM)
    (h : (generate_matches (es.map mk_with_matches))[k]? = some e) :
    (∃ sd bb tr, e.matched = sd ++ bb ++ tr ∧
       (∀ m ∈ sd, m.2.2 = TaxRule.SAME_DAY) ∧
       (∀ m ∈ bb, m.2.2 = TaxRule.BED_AND_BREAKFAST) ∧
       (∀ m ∈ tr, m.2.2 = TaxRule.SECTION_104)) ∧
    (e.event.event_type = TaxRelatedEventType.SELL →
      ∀ m ∈ e.matched, m.2.2 = TaxRule.BED_AND_BREAKFAST →
        ∃ eb, es[m.1]? = some eb ∧ eb.event_type = TaxRelatedEventType.BUY ∧
          eb.asset = e.event.asset ∧ e.event.asset_type ≠ AssetType.CFD ∧
          eb.asset_type ≠ AssetType.CFD ∧ EPS ≤ m.2.1 ∧
          day_of e.event.timestamp < day_of eb.timestamp ∧
          day_of eb.timestamp ≤ day_of e.event.timestamp + 30) ∧
    (∀ e2 : EvM, (after_passes (es.map mk_with_matches))[k]? = some e2 →
      e2.remaining_quantity = e2.event.quantity - matched_sum e2) := by
  have hsd := @outer_scan_inv TaxRule.SAME_DAY (by decide) es
    (es.map mk_with_matches).length (es.map mk_with_matches) 0
    (mk_with_matches_inv es)
  have hsd_len := hsd.2.1
  have hbb := @outer_scan_inv TaxRule.BED_AND_BREAKFAST (by decide) es
    (outer_scan TaxRule.SAME_DAY (es.map mk_with_matches).length
      (es.map mk_with_matches) 0).length
    (outer_scan TaxRule.SAME_DAY (es.map mk_with_matches).length
      (es.map mk_with_matches) 0) 0 hsd.1
  have hap : after_passes (es.map mk_with_matches) =
      outer_scan TaxRule.BED_AND_BREAKFAST
        (outer_scan TaxRule.SAME_DAY (es.map mk_with_matches).length
          (es.map mk_with_matches) 0).length
        (outer_scan TaxRule.SAME_DAY (es.map mk_with_matches).length
          (es.map mk_with_matches) 0) 0 := rfl
  rw [generate_matches_eq_append, getElem?_append_s104] at h
  obtain ⟨e2, he2, he⟩ := Option.map_eq_some'.mp h
  have hk : k < (after_passes (es.map mk_with_matches)).length := by
    by_contra hk
    rw [List.getElem?_eq_none (not_lt.mp hk)] at he2
    cases he2
  have hk0 : k < (es.map mk_with_matches).length := by
    rw [hap] at hk
    rw [hbb.2.1, hsd.2.1] at hk
    exact hk
  obtain ⟨a0, ha0⟩ : ∃ a0, (es.map mk_with_matches)[k]? = some a0 :=
    ⟨_, List.getElem?_eq_getElem hk0⟩
  obtain ⟨e1, t_sd, he1, hev1, hm1, ht1⟩ := hsd.2.2 k a0 ha0
  obtain ⟨e2b, t_bb, he2b, hev2, hm2, ht2⟩ := hbb.2.2 k e1 he1
  have he2eq : e2b = e2 := by
    rw [hap] at he2
    rw [he2b] at he2
    exact Option.some_inj.mp he2
  rw [he2eq] at hm2
  have ha0m : a0.matched = [] := by
    simp only [List.getElem?_map] at ha0
    obtain ⟨a, _, rfl⟩ := Option.map_eq_some'.mp ha0
    rfl
  have hm12 : e2.matched = t_sd ++ t_bb := by
    rw [hm2, hm1, ha0m, List.nil_append]
  have inv2 := after_passes_inv es
  have hkey : ∃ t_s1, e.matched = (t_sd ++ t_bb) ++ t_s1 ∧
      (∀ m ∈ t_s1, m.2.2 = TaxRule.SECTION_104) ∧ e.event = e2.event := by
    subst he
    by_cases hc : EPS ≤ e2.remaining_quantity ∨ e2.matched.isEmpty
    · rw [if_pos hc]
      exact ⟨[(0 + k, e2.remaining_quantity, TaxRule.SECTION_104)],
        by rw [← hm12], by simp, rfl⟩
    · rw [if_neg hc]
      exact ⟨[], by rw [← hm12, List.append_nil], by simp, rfl⟩
  obtain ⟨t_s1, hmm, hts1, hevv⟩ := hkey
  refine ⟨⟨t_sd, t_bb, t_s1, by rw [hmm, List.append_assoc], ht1, ht2, hts1⟩,
    ?_, ?_⟩
  · intro hsellty m hmem hrule
    have hmem2 : m ∈ e2.matched := by
      rw [hmm] at hmem
      rcases List.mem_append.mp hmem with hmem | hmem
      · rw [hm12]; exact hmem
      · rw [hts1 m hmem] at hrule
        exact absurd hrule (by decide)
    have hok := inv2.entries k e2 he2 m hmem2
    obtain ⟨hq, _, hdir⟩ := hok
    have hevk : es[k]? = some e2.event := by
      rw [events_getElem? inv2.events k, he2]
      rfl
    rcases hdir with hko | hko
    · obtain ⟨es2, eb, hes2, heb, _, hbuyty, hasset, hscfd, hbcfd, hdate⟩ := hko
      have hes2e : es2 = e2.event := by
        rw [hes2] at hevk
        exact Option.some_inj.mp hevk
      subst hes2e
      rw [hrule] at hdate
      simp only [date_rule_ok] at hdate
      refine ⟨eb, heb, hbuyty, by rw [hevv, hasset], by rw [hevv]; exact hscfd,
        hbcfd, hq, ?_, ?_⟩
      · rw [hevv]; exact hdate.1
      · rw [hevv]; exact hdate.2
    · obtain ⟨es2, eb, hes2, heb, _, hbuyty, _, _, _, _⟩ := hko
      have hebe : eb = e2.event := by
        rw [heb] at hevk
        exact Option.some_inj.mp hevk
      subst hebe
      rw [hevv] at hsellty
      rw [hsellty] at hbuyty
      exact absurd hbuyty (by decide)
  · intro e2' he2'
    exact inv2.rem k e2' he2'

theorem process_match_sell (rate : Int → String → ℚ) (all : List EvM)
    (pool : AssetPool) (item : EvM) (midx mrow : Nat) (mq : ℚ) (mr : TaxRule)
    (hsell : item.event.event_type = TaxRelatedEventType.SELL)
    (hcfd : item.event.asset_type ≠ AssetType.CFD) :
    process_match rate all pool item midx mrow mq mr = .error () ∨
    ∃ pool2 rec, process_match rate all pool item midx mrow mq mr =
        .ok (pool2, some rec) ∧
      rec.event_count = (if midx = 0 ∧ date_ne_last pool.last_disposal_date
          (day_of item.event.timestamp) then 1 else 0) ∧
      pool2.last_disposal_date = some (day_of item.event.timestamp) := by
  have hcfdb : item.event.asset_type.beq AssetType.CFD = false := by
    cases hat : item.event.asset_type <;> simp [AssetType.beq]
    exact hcfd hat
  simp only [process_match, hsell, TaxRelatedEventType.beq, hcfdb,
    Bool.or_false, Bool.false_or, Bool.or_self, if_false, Bool.false_eq_true,
    if_true]
  by_cases hrule : mr.beq TaxRule.SECTION_104 = true
  · rw [if_pos hrule]
    by_cases hq : pool.total_quantity ≤ 0
    · rw [if_pos hq]
      exact Or.inl rfl
    · rw [if_neg hq]
      exact Or.inr ⟨_, _, rfl, rfl, rfl⟩
  · rw [if_neg hrule]
    cases hall : all[mrow]? with
    | none => exact Or.inl rfl
    | some buy_transaction => exact Or.inr ⟨_, _, rfl, rfl, rfl⟩

theorem process_matches_sell_tail (rate : Int → String → ℚ) (all : List EvM)
    (item : EvM)
    (hsell : item.event.event_type = TaxRelatedEventType.SELL)
    (hcfd : item.event.asset_type ≠ AssetType.CFD) :
    ∀ (ms : List (Nat × ℚ × TaxRule)) (pool : AssetPool) (midx : Nat)
      (pool2 : AssetPool) (recs : List TaxableEventInfo), midx ≠ 0 →
      process_matches rate all item pool midx ms = .ok (pool2, recs) →
      recs.length = ms.length ∧ ∀ r ∈ recs, r.event_count = 0 := by
  intro ms
  induction ms with
  | nil =>
    intro pool midx pool2 recs _ h
    simp only [process_matches, Except.ok.injEq, Prod.mk.injEq] at h
    obtain ⟨_, rfl⟩ := h
    exact ⟨rfl, by intro r hr; cases hr⟩
  | cons m rest ih =>
    intro pool midx pool2 recs hmidx h
    obtain ⟨mrow, mq, mr⟩ := m
    rw [process_matches] at h
    rcases process_match_sell rate all pool item midx mrow mq mr hsell hcfd with
      herr | ⟨pool1, rec, hok, hec, _⟩
    · rw [herr] at h
      cases h
    · rw [hok] at h
      dsimp only at h
      cases hrest : process_matches rate all item pool1 (midx + 1) rest with
      | error e =>
        rw [hrest] at h
        cases h
      | ok pr =>
        obtain ⟨pool3, recs3⟩ := pr
        rw [hrest] at h
        dsimp only at h
        simp only [Except.ok.injEq, Prod.mk.injEq] at h
        obtain ⟨-, rfl⟩ := h
        obtain ⟨hlen, hzero⟩ :=
          ih pool1 (midx + 1) pool3 recs3 (Nat.succ_ne_zero midx) hrest
        constructor
        · simp [hlen]
        · intro r hr
          simp only [Option.toList_some, List.cons_append, List.nil_append,
            List.mem_cons] at hr
          rcases hr with rfl | hr
          · rw [hec, if_neg]
            intro hcon
            exact hmidx hcon.1
          · exact hzero r hr

/-- C6 (amended): for every non-CFD Sell event processed by the generator,
one taxable-event record is emitted per match record; the `event_count`
fields sum to 0 or 1, the sum being 1 exactly when the sell has match
records and its date differs from the pool's `last_disposal_date`; and a
record carries `event_count = 1` exactly when it is the first match record
and the date differs.  (CFD sells take a different branch whose records
always carry the dataclass default `event_count = 1`.) -/
theorem sell_event_count_characterization (rate : Int → String → ℚ)
    (all : List EvM) (pools : Pools) (item : EvM)
    (pools2 : Pools) (recs : List TaxableEventInfo)
    (hsell : item.event.event_type = TaxRelatedEventType.SELL)
    (hcfd : item.event.asset_type ≠ AssetType.CFD)
    (h : process_item rate all pools item = .ok (pools2, recs)) :
    recs.length = item.matched.length ∧
    (recs.map (fun r => r.event_count)).sum ≤ 1 ∧
    ((recs.map (fun r => r.event_count)).sum = 1 ↔
      item.matched ≠ [] ∧
      date_ne_last (pools item.event.asset).last_disposal_date
        (day_of item.event.timestamp) = true) ∧
    ∀ (n : Nat) (r : TaxableEventInfo), recs[n]? = some r →
      (r.event_count = 1 ↔ n = 0 ∧
        date_ne_last (pools item.event.asset).last_disposal_date
          (day_of item.event.timestamp) = true) := by
  have hskip : (item.event.event_type.beq TaxRelatedEventType.BUY &&
      item.event.asset_type.beq AssetType.CFD) = false := by
    rw [hsell]
    rfl
  rw [process_item, hskip] at h
  simp only [Bool.false_eq_true, if_false] at h
  cases hpm : process_matches rate all item (pools item.event.asset) 0
      item.matched with
  | error e =>
    rw [hpm] at h
    cases h
  | ok pr =>
    obtain ⟨pool1, evts⟩ := pr
    rw [hpm] at h
    dsimp only at h
    simp only [Except.ok.injEq, Prod.mk.injEq] at h
    obtain ⟨-, rfl⟩ := h
    cases hms : item.matched with
    | nil =>
      rw [hms] at hpm
      simp only [process_matches, Except.ok.injEq, Prod.mk.injEq] at hpm
      obtain ⟨-, rfl⟩ := hpm
      refine ⟨rfl, by simp, ?_, ?_⟩
      · simp
      · intro n r hr
        cases n <;> cases hr
    | cons m rest =>
      obtain ⟨mrow, mq, mr⟩ := m
      rw [hms] at hpm
      rw [process_matches] at hpm
      rcases process_match_sell rate all (pools item.event.asset) item 0 mrow
          mq mr hsell hcfd with herr | ⟨poolx, rec, hok, hec, -⟩
      · rw [herr] at hpm
        cases hpm
      · rw [hok] at hpm
        dsimp only at hpm
        cases hrest : process_matches rate all item poolx 1 rest with
        | error e =>
          rw [hrest] at hpm
          cases hpm
        | ok pr2 =>
          obtain ⟨pool3, recs3⟩ := pr2
          rw [hrest] at hpm
          dsimp only at hpm
          simp only [Except.ok.injEq, Prod.mk.injEq] at hpm
          obtain ⟨-, rfl⟩ := hpm
          obtain ⟨hlen3, hzero3⟩ := process_matches_sell_tail rate all item
            hsell hcfd rest poolx 1 pool3 recs3 one_ne_zero hrest
          have hsum3 : ((recs3.map (fun r => r.event_count))).sum = 0 :=
            List.sum_eq_zero (by
              intro x hx
              obtain ⟨r, hr, rfl⟩ := List.mem_map.mp hx
              exact hzero3 r hr)
          have hzero_simp : (if (0 : Nat) = 0 ∧ date_ne_last
              (pools item.event.asset).last_disposal_date
              (day_of item.event.timestamp) = true then (1 : Int) else 0) =
              (if date_ne_last (pools item.event.asset).last_disposal_date
                (day_of item.event.timestamp) = true then (1 : Int) else 0) := by
            simp
          rw [hzero_simp] at hec
          refine ⟨?_, ?_, ?_, ?_⟩
          · simp [hlen3]
          · simp only [Option.toList_some, List.cons_append, List.nil_append,
              List.map_cons, List.sum_cons, hsum3, add_zero, hec]
            split <;> norm_num
          · simp only [Option.toList_some, List.cons_append, List.nil_append,
              List.map_cons, List.sum_cons, hsum3, add_zero, hec]
            constructor
            · intro hone
              refine ⟨by simp, ?_⟩
              by_contra hdn
              rw [if_neg hdn] at hone
              exact absurd hone (by norm_num)
            · rintro ⟨-, hdn⟩
              rw [if_pos hdn]
          · intro n r hr
            cases n with
            | zero =>
              simp only [Option.toList_some, List.cons_append, List.nil_append,
                List.getElem?_cons_zero, Option.some_inj] at hr
              subst hr
              rw [hec]
              constructor
              · intro hone
                refine ⟨rfl, ?_⟩
                by_contra hdn
                rw [if_neg hdn] at hone
                exact absurd hone (by norm_num)
              · rintro ⟨-, hdn⟩
                rw [if_pos hdn]
            | succ n' =>
              simp only [Option.toList_some, List.cons_append, List.nil_append,
                List.getElem?_cons_succ] at hr
              have hmem : r ∈ recs3 := by
                have hn' : n' < recs3.length := by
                  by_contra hn'
                  rw [List.getElem?_eq_none (not_lt.mp hn')] at hr
                  cases hr
                exact List.getElem?_mem hr
              rw [hzero3 r hmem]
              constructor
              · intro hcon
                exact absurd hcon (by norm_num)
              · rintro ⟨hcon, -⟩
                exact absurd hcon (Nat.succ_ne_zero n')

/-- C2 (amended): one match-record step of the generator preserves pool
nonnegativity under the no-underflow side conditions: nonnegative inputs
and a positive rate, every Capital Return bounded by the pool's current
cost, and every S104-allocated sell quantity bounded by the pool's
quantity.  Without those two side conditions the bound fails (see the
counterexample theorem). -/
theorem process_match_preserves_pool_nonneg (rate : Int → String → ℚ)
    (all : List EvM) (pool : AssetPool) (item : EvM) (midx mrow : Nat)
    (mq : ℚ) (mr : TaxRule) (pool2 : AssetPool)
    (emit : Option TaxableEventInfo)
    (h : process_match rate all pool item midx mrow mq mr = .ok (pool2, emit))
    (hq0 : 0 ≤ pool.total_quantity) (hc0 : 0 ≤ pool.total_cost)
    (hrate : 0 < rate item.event.timestamp item.event.currency)
    (hprice : 0 ≤ item.event.price) (hfee : 0 ≤ item.event.fee_value)
    (hmq : 0 ≤ mq) (hquant : 0 ≤ item.event.quantity)
    (hcap : item.event.event_type = TaxRelatedEventType.CAPITAL_RETURN →
      item.event.price * (1 / rate item.event.timestamp item.event.currency) ≤
        pool.total_cost)
    (hsell : item.event.event_type = TaxRelatedEventType.SELL →
      mr = TaxRule.SECTION_104 → mq ≤ pool.total_quantity) :
    0 ≤ pool2.total_quantity ∧ 0 ≤ pool2.total_cost := by
  have hrate' : 0 ≤ 1 / rate item.event.timestamp item.event.currency :=
    le_of_lt (by positivity)
  have hbuy : 0 ≤ item.event.price * mq *
      (1 / rate item.event.timestamp item.event.currency) :=
    mul_nonneg (mul_nonneg hprice hmq) hrate'
  have hfee' : 0 ≤ item.event.fee_value *
      (1 / rate item.event.timestamp item.event.currency) :=
    mul_nonneg hfee hrate'
  have hpr : 0 ≤ item.event.price *
      (1 / rate item.event.timestamp item.event.currency) :=
    mul_nonneg hprice hrate'
  cases hty : item.event.event_type
  case BUY | VEST | INCOME =>
    simp only [process_match, hty, TaxRelatedEventType.beq, Bool.or_false,
      Bool.false_or, Bool.or_true, Bool.true_or, Bool.or_self,
      Bool.false_eq_true, eq_self_iff_true, if_true, if_false] at h
    split_ifs at h <;>
      (simp only [Except.ok.injEq, Prod.mk.injEq] at h
       obtain ⟨hp, -⟩ := h
       rw [← hp]
       exact ⟨by first | exact add_nonneg hq0 hmq | exact hq0,
         by first | exact add_nonneg hc0 (add_nonneg hbuy hfee') | exact hc0⟩)
  case SELL =>
    simp only [process_match, hty, TaxRelatedEventType.beq, Bool.or_false,
      Bool.false_or, Bool.or_true, Bool.true_or, Bool.or_self,
      Bool.false_eq_true, eq_self_iff_true, if_true, if_false] at h
    by_cases hcfd : item.event.asset_type.beq AssetType.CFD = true
    · rw [if_pos hcfd] at h
      simp only [Except.ok.injEq, Prod.mk.injEq] at h
      obtain ⟨hp, -⟩ := h
      rw [← hp]
      exact ⟨hq0, hc0⟩
    · rw [if_neg hcfd] at h
      by_cases hrule : mr.beq TaxRule.SECTION_104 = true
      · rw [if_pos hrule] at h
        by_cases hqz : pool.total_quantity ≤ 0
        · rw [if_pos hqz] at h
          cases h
        · rw [if_neg hqz] at h
          simp only [Except.ok.injEq, Prod.mk.injEq] at h
          obtain ⟨hp, -⟩ := h
          rw [← hp]
          have htq : 0 < pool.total_quantity := lt_of_not_le hqz
          have hmqle : mq ≤ pool.total_quantity :=
            hsell hty (taxRule_beq_iff.mp hrule)
          constructor
          · exact sub_nonneg.mpr hmqle
          · have hdiv : mq / pool.total_quantity ≤ 1 :=
              (div_le_one htq).mpr hmqle
            have : mq / pool.total_quantity * pool.total_cost ≤
                pool.total_cost := mul_le_of_le_one_left hc0 hdiv
            exact sub_nonneg.mpr this
      · rw [if_neg hrule] at h
        cases hall : all[mrow]? with
        | none =>
          rw [hall] at h
          cases h
        | some buy_transaction =>
          rw [hall] at h
          dsimp only at h
          simp only [Except.ok.injEq, Prod.mk.injEq] at h
          obtain ⟨hp, -⟩ := h
          rw [← hp]
          exact ⟨hq0, hc0⟩
  case ERI =>
    simp only [process_match, hty, TaxRelatedEventType.beq, Bool.or_false,
      Bool.false_or, Bool.or_self, Bool.false_eq_true, eq_self_iff_true, if_true, if_false] at h
    by_cases hcfd : item.event.asset_type.beq AssetType.CFD = true
    · rw [if_pos hcfd] at h
      simp only [Except.ok.injEq, Prod.mk.injEq] at h
      obtain ⟨hp, -⟩ := h
      rw [← hp]
      exact ⟨hq0, hc0⟩
    · rw [if_neg hcfd] at h
      simp only [Except.ok.injEq, Prod.mk.injEq] at h
      obtain ⟨hp, -⟩ := h
      rw [← hp]
      exact ⟨hq0, add_nonneg hc0 hpr⟩
  case CAPITAL_RETURN =>
    simp only [process_match, hty, TaxRelatedEventType.beq, Bool.or_false,
      Bool.false_or, Bool.or_self, Bool.false_eq_true, eq_self_iff_true, if_true, if_false] at h
    by_cases hcfd : item.event.asset_type.beq AssetType.CFD = true
    · rw [if_pos hcfd] at h
      simp only [Except.ok.injEq, Prod.mk.injEq] at h
      obtain ⟨hp, -⟩ := h
      rw [← hp]
      exact ⟨hq0, hc0⟩
    · rw [if_neg hcfd] at h
      simp only [Except.ok.injEq, Prod.mk.injEq] at h
      obtain ⟨hp, -⟩ := h
      rw [← hp]
      exact ⟨hq0, sub_nonneg.mpr (hcap hty)⟩
  case DIVIDEND =>
    simp only [process_match, hty, TaxRelatedEventType.beq, Bool.or_false,
      Bool.false_or, Bool.or_true, Bool.true_or, Bool.or_self,
      Bool.false_eq_true, eq_self_iff_true, if_true, if_false] at h
    by_cases hcfd : item.event.asset_type.beq AssetType.CFD = true
    · rw [if_pos hcfd] at h
      simp only [Except.ok.injEq, Prod.mk.injEq] at h
      obtain ⟨hp, -⟩ := h
      rw [← hp]
      exact ⟨hq0, hc0⟩
    · rw [if_neg hcfd] at h
      simp only [Except.ok.injEq, Prod.mk.injEq] at h
      obtain ⟨hp, -⟩ := h
      rw [← hp]
      exact ⟨hq0, hc0⟩
  case CASH_INCOME =>
    simp only [process_match, hty, TaxRelatedEventType.beq, Bool.or_false,
      Bool.false_or, Bool.or_true, Bool.true_or, Bool.or_self,
      Bool.false_eq_true, eq_self_iff_true, if_true, if_false] at h
    by_cases hcfd : item.event.asset_type.beq AssetType.CFD = true
    · rw [if_pos hcfd] at h
      simp only [Except.ok.injEq, Prod.mk.injEq] at h
      obtain ⟨hp, -⟩ := h
      rw [← hp]
      exact ⟨hq0, hc0⟩
    · rw [if_neg hcfd] at h
      simp only [Except.ok.injEq, Prod.mk.injEq] at h
      obtain ⟨hp, -⟩ := h
      rw [← hp]
      exact ⟨hq0, hc0⟩
  case STOCK_SPLIT =>
    simp only [process_match, hty, TaxRelatedEventType.beq, Bool.or_false,
      Bool.false_or, Bool.or_self, Bool.false_eq_true, eq_self_iff_true, if_true, if_false] at h
    by_cases hcfd : item.event.asset_type.beq AssetType.CFD = true
    · rw [if_pos hcfd] at h
      simp only [Except.ok.injEq, Prod.mk.injEq] at h
      obtain ⟨hp, -⟩ := h
      rw [← hp]
      exact ⟨hq0, hc0⟩
    · rw [if_neg hcfd] at h
      simp only [Except.ok.injEq, Prod.mk.injEq] at h
      obtain ⟨hp, -⟩ := h
      rw [← hp]
      exact ⟨mul_nonneg hq0 hquant, hc0⟩

theorem upd_heap_ne (h : Heap) (r : Nat) (e : EvM) (x : Nat) (hx : x ≠ r) :
    upd_heap h r e x = h x := if_neg hx

theorem write_back_not_mem : ∀ (rs : List Nat) (vs : List EvM) (h : Heap)
    (x : Nat), x ∉ rs → write_back h rs vs x = h x := by
  intro rs
  induction rs with
  | nil => intro vs h x _; cases vs <;> rfl
  | cons r rs ih =>
    intro vs h x hx
    cases vs with
    | nil => rfl
    | cons v vs =>
      simp only [write_back]
      rw [ih vs (upd_heap h r v) x (fun hm => hx (List.mem_cons_of_mem r hm))]
      exact upd_heap_ne h r v x (fun he => hx (he ▸ List.mem_cons_self r rs))

theorem write_back_map : ∀ (rs : List Nat) (vs : List EvM) (h : Heap),
    rs.Nodup → vs.length = rs.length →
    rs.map (write_back h rs vs) = vs := by
  intro rs
  induction rs with
  | nil =>
    intro vs h _ hlen
    cases vs with
    | nil => rfl
    | cons v vs => exact absurd hlen (by simp)
  | cons r rs ih =>
    intro vs h hnd hlen
    cases vs with
    | nil => exact absurd hlen (by simp)
    | cons v vs =>
      obtain ⟨hr, hnd2⟩ := List.nodup_cons.mp hnd
      simp only [write_back, List.map_cons]
      have hlen2 : vs.length = rs.length := by
        simpa using hlen
      congr 1
      · rw [write_back_not_mem rs vs (upd_heap h r v) r hr]
        exact if_pos rfl
      · exact ih vs (upd_heap h r v) hnd2 hlen2

theorem inner_scan_length (p : TaxRule) : ∀ (fuel : Nat) (l : List EvM)
    (i j : Nat), (inner_scan p fuel l i j).length = l.length := by
  intro fuel
  induction fuel with
  | zero => intro l i j; rfl
  | succ fuel ih =>
    intro l i j
    rw [inner_scan]
    split
    case isFalse => rfl
    case isTrue hj =>
      dsimp only
      split_ifs <;>
        first
          | rfl
          | exact ih l i (j + 1)
          | exact (ih _ i (j + 1)).trans (match_transactions_length l i j p)
          | exact match_transactions_length l i j p

theorem outer_scan_length (p : TaxRule) : ∀ (fuel : Nat) (l : List EvM)
    (i : Nat), (outer_scan p fuel l i).length = l.length := by
  intro fuel
  induction fuel with
  | zero => intro l i; rfl
  | succ fuel ih =>
    intro l i
    rw [outer_scan]
    split
    case isFalse => rfl
    case isTrue hi =>
      dsimp only
      split_ifs <;>
        first
          | exact ih l (i + 1)
          | exact (ih _ (i + 1)).trans (inner_scan_length p l.length l i 0)

theorem generate_matches_length (l : List EvM) :
    (generate_matches l).length = l.length := by
  rw [generate_matches_eq_append]
  rw [length_append_s104]
  unfold after_passes
  rw [outer_scan_length, outer_scan_length]

/-- C10: a run of `generate_matches` never changes the caller's objects —
every input address holds its pre-call object afterwards (in particular its
`matched` list and `remaining_quantity`), and the returned fresh addresses
hold exactly the decorated copy `generate_matches` computes from the input
values. -/
theorem generate_matches_leaves_input_unchanged (h : Heap) (refs : List Nat)
    (fresh : Nat) (hfresh : ∀ r ∈ refs, r < fresh) :
    (∀ r ∈ refs, (generate_matches_heap h refs fresh).1 r = h r) ∧
    ((generate_matches_heap h refs fresh).2).map
        ((generate_matches_heap h refs fresh).1) =
      generate_matches (refs.map h) := by
  have hnotin : ∀ x ∈ refs,
      x ∉ (List.range refs.length).map (fun k => fresh + k) := by
    intro x hx hmem
    obtain ⟨k, -, rfl⟩ := List.mem_map.mp hmem
    exact absurd (hfresh _ hx) (not_lt.mpr (Nat.le_add_right fresh k))
  constructor
  · intro r hr
    unfold generate_matches_heap
    dsimp only
    rw [write_back_not_mem _ _ _ r (hnotin r hr),
      write_back_not_mem _ _ _ r (hnotin r hr)]
  · unfold generate_matches_heap
    dsimp only
    apply write_back_map
    · exact List.Nodup.map (fun a b hab => Nat.add_left_cancel hab)
        (List.nodup_range refs.length)
    · rw [generate_matches_length]
      simp

/-!
## Witness instantiations
-/

theorem process_match_preserves_pool_nonneg_witness :
    0 ≤ (AssetPool.mk 50 10 none).total_quantity ∧
      0 ≤ (AssetPool.mk 50 10 none).total_cost :=
  process_match_preserves_pool_nonneg one_rate [] pool_cr item_cr 0 0 0
    TaxRule.SECTION_104 ⟨50, 10, none⟩
    (some ⟨.CAPITAL_RETURN, 1, 0, 50, 0, 50, none⟩)
    (by norm_num [process_match, one_rate, date_ne_last, day_of, item_cr,
      pool_cr, sample_event, mk_with_matches, TaxRelatedEventType.beq,
      AssetType.beq, TaxRule.beq])
    (by norm_num [pool_cr]) (by norm_num [pool_cr]) (by norm_num [one_rate])
    (by norm_num [item_cr, sample_event, mk_with_matches])
    (by norm_num [item_cr, sample_event, mk_with_matches])
    (by norm_num)
    (by norm_num [item_cr, sample_event, mk_with_matches])
    (by intro _; norm_num [item_cr, one_rate, pool_cr, sample_event,
      mk_with_matches])
    (by intro _ _; norm_num [pool_cr])

theorem every_event_keeps_a_match_record_witness :
    ∃ e, (generate_matches (same_day_pair.map mk_with_matches))[0]? = some e ∧
      e.matched ≠ [] ∧
      ((EPS ≤ sd_pair_buy_matched.remaining_quantity ∨
          sd_pair_buy_matched.matched = []) →
        e.matched = sd_pair_buy_matched.matched ++
          [(0, sd_pair_buy_matched.remaining_quantity, TaxRule.SECTION_104)] ∧
        e.remaining_quantity = 0) ∧
      (sd_pair_buy_matched.remaining_quantity < EPS ∧
          sd_pair_buy_matched.matched ≠ [] → e = sd_pair_buy_matched) :=
  every_event_keeps_a_match_record same_day_pair 0 sd_pair_buy_matched
    (by norm_num [after_passes, outer_scan, inner_scan, match_transactions,
      updAt, remAt, assetAt, dayAt, day_of, EPS, pass_date_cond,
      mk_with_matches, sample_event, same_day_pair, sd_pair_buy_matched,
      AssetType.beq, TaxRelatedEventType.beq])

theorem sell_matched_sum_within_tolerance_witness :
    0 ≤ sd_pair_sell_matched.event.quantity -
        matched_sum sd_pair_sell_matched ∧
      sd_pair_sell_matched.event.quantity -
        matched_sum sd_pair_sell_matched < EPS :=
  sell_matched_sum_within_tolerance same_day_pair 1 sd_pair_sell_matched
    (by norm_num [generate_matches, outer_scan, inner_scan,
      match_transactions, append_s104, updAt, remAt, assetAt, dayAt, day_of,
      EPS, pass_date_cond, mk_with_matches, sample_event, same_day_pair,
      sd_pair_sell_matched, AssetType.beq, TaxRelatedEventType.beq])
    rfl

theorem bb_pass_behavior_witness :
    ∃ sd bb tr, bb_sell_matched.matched = sd ++ bb ++ tr ∧
      (∀ m ∈ sd, m.2.2 = TaxRule.SAME_DAY) ∧
      (∀ m ∈ bb, m.2.2 = TaxRule.BED_AND_BREAKFAST) ∧
      (∀ m ∈ tr, m.2.2 = TaxRule.SECTION_104) :=
  (bb_pass_behavior bb_pair 0 bb_sell_matched
    (by norm_num [generate_matches, outer_scan, inner_scan,
      match_transactions, append_s104, updAt, remAt, assetAt, dayAt, day_of,
      EPS, pass_date_cond, mk_with_matches, sample_event, bb_pair,
      bb_sell_matched, AssetType.beq, TaxRelatedEventType.beq])).1

theorem sell_event_count_characterization_witness :
    (([(⟨.SELL, 1, 0, 12, 10, 2, some TaxRule.SECTION_104⟩ :
        TaxableEventInfo)]).map (fun r => r.event_count)).sum ≤ 1 :=
  (sell_event_count_characterization one_rate [] pools_sell item_sell
    (updPool pools_sell "A" ⟨990, 99, some 0⟩)
    [⟨.SELL, 1, 0, 12, 10, 2, some TaxRule.SECTION_104⟩]
    rfl (fun hcon => AssetType.noConfusion hcon)
    (by norm_num [process_item, process_matches, process_match, updPool,
      date_ne_last, one_rate, day_of, item_sell, pools_sell, sample_event,
      TaxRelatedEventType.beq, AssetType.beq, TaxRule.beq])).2.1

theorem generate_matches_leaves_input_unchanged_witness :
    (generate_matches_heap sample_heap [0] 1).1 0 = sample_heap 0 :=
  (generate_matches_leaves_input_unchanged sample_heap [0] 1
    (by simp)).1 0 (by simp)

end TaxUK
